import Mathlib

set_option allowUnsafeReducibility true
set_option maxRecDepth 10000
attribute [semireducible] Rat.mul Rat.inv Rat.add Rat.sub

/-!
Shallow embedding of the aggregation/rollup engine of `scripts/monitor.py`
(class `Monitor`) together with the configuration constants of `config.py`.

Python floats are modelled as exact rationals (`ℚ`).  `round(x, 2)` is
modelled by `round2` below.  The on-disk JSON arrays are modelled as Lean
lists of `Rec`; a missing/unreadable file is `Option.none`.  Fallible
operations (`update_current_stats` can raise `ZeroDivisionError` or
`IndexError`) return `Option`.
-/

namespace Monitor

/-- `round(x, 2)`: round to two decimal digits.  CPython rounds the binary
float representation with ties-to-even; on exact rationals we use Mathlib's
`round` (ties go up).  No development below depends on the tie direction. -/
def round2 (x : ℚ) : ℚ := ((round (100 * x) : ℤ) : ℚ) / 100

/-- A parsed ISO-8601 UTC instant (`datetime.datetime`), to the precision the
code inspects (`.hour`, `.date()`, `strftime`). -/
structure DT where
  y : ℕ
  mo : ℕ
  d : ℕ
  h : ℕ
  mi : ℕ
  s : ℕ
deriving DecidableEq, Repr, Inhabited

/-- The string stored in a record's `"datetime"` field.  Hourly records hold a
full ISO instant; daily records hold `'YYYY-MM-DD'`; monthly records hold
`'YYYY-MM'`. -/
inductive Key where
  | inst : DT → Key
  | day : ℕ → ℕ → ℕ → Key
  | mon : ℕ → ℕ → Key
deriving DecidableEq, Repr, Inhabited

/-- `datetime.fromisoformat(s).hour` (a date-only or month-only string parses
to midnight). -/
def Key.hourOf : Key → ℕ
  | .inst dt => dt.h
  | .day _ _ _ => 0
  | .mon _ _ => 0

/-- `datetime.fromisoformat(s).date()` (a month-only string parses to the
first of the month, Python ≥ 3.11). -/
def Key.dateOf : Key → ℕ × ℕ × ℕ
  | .inst dt => (dt.y, dt.mo, dt.d)
  | .day y m d => (y, m, d)
  | .mon y m => (y, m, 1)

/-- `datetime.fromisoformat(s).date().strftime('%Y-%m-%d')`, as a `Key`. -/
def Key.dateKey : Key → Key
  | .inst dt => .day dt.y dt.mo dt.d
  | .day y m d => .day y m d
  | .mon y m => .day y m 1

/-- `datetime.fromisoformat(s).strftime('%Y-%m')`, as a `Key`. -/
def Key.monthKey : Key → Key
  | .inst dt => .mon dt.y dt.mo
  | .day y m _ => .mon y m
  | .mon y m => .mon y m

/-- `s[:10]` on the stored datetime string: a full ISO instant is cut to its
`'YYYY-MM-DD'` prefix, a date string is unchanged, and a 7-character month
string is shorter than 10 so it is also unchanged. -/
def Key.take10 : Key → Key
  | .inst dt => .day dt.y dt.mo dt.d
  | .day y m d => .day y m d
  | .mon y m => .mon y m

/-- Components of the canonical (zero-padded) string rendering of a key, most
significant first.  Lexicographic comparison of these component lists agrees
with Python string comparison of the rendered keys. -/
def Key.toComponents : Key → List ℕ
  | .inst dt => [dt.y, dt.mo, dt.d, dt.h, dt.mi, dt.s]
  | .day y m d => [y, m, d]
  | .mon y m => [y, m]

/-- Lexicographic order on component lists; a proper prefix sorts first,
matching string comparison of zero-padded renderings. -/
def lexLe : List ℕ → List ℕ → Bool
  | [], _ => true
  | _ :: _, [] => false
  | a :: as, b :: bs => if a < b then true else if b < a then false else lexLe as bs

/-- The sort key used by `sorted(..., key=lambda r: r["datetime"])`. -/
def Key.le (a b : Key) : Bool := lexLe a.toComponents b.toComponents

/-- One element of a persisted JSON series (the dict built by
`get_and_reset_stats` / `_merge_monitor_records`), with the nested dicts
flattened into fields. -/
structure Rec where
  dt : Key
  cpu_per_core_avg : List ℚ
  cpu_total_avg : ℚ
  ram_avg_used : ℚ
  ram_min_used : ℚ
  ram_max_used : ℚ
  ram_total : ℚ
  disk_used : ℚ
  disk_total : ℚ
  transfer_total : ℚ
deriving DecidableEq, Repr, Inhabited

/-- The inner loop `for i, val in enumerate(r["cpu"]["cpu_per_core_avg"]):
cpu_per_core_sum[i] += val`.  When `r`'s list is shorter than the running sum
the remaining entries are untouched; Python raises `IndexError` when it is
longer, a case none of the theorems below enters. -/
def addCores : List ℚ → List ℚ → List ℚ
  | acc, [] => acc
  | [], _ :: _ => []
  | a :: acc, v :: r => (a + v) :: addCores acc r

/-- `Monitor._merge_monitor_records(records, merged_dt)` with the non-empty
records list passed as head and tail (the code indexes `records[0]`).
`float("inf")` / `float("-inf")` seeds are modelled by `⊤ : WithTop ℚ` /
`⊥ : WithBot ℚ`; over a non-empty records list the folds are finite, so the
`untop' 0` / `unbot' 0` defaults are never consulted. -/
def merge (merged_dt : Key) (r0 : Rec) (rest : List Rec) : Rec :=
  let records := r0 :: rest
  let cpu_per_core_sum := records.foldl (fun acc r => addCores acc r.cpu_per_core_avg)
      (List.replicate r0.cpu_per_core_avg.length 0)
  let cpu_total_sum := records.foldl (fun s r => s + r.cpu_total_avg) 0
  let ram_avg_sum := records.foldl (fun s r => s + r.ram_avg_used) 0
  let ram_min := records.foldl (fun m r => min m (r.ram_min_used : WithTop ℚ)) ⊤
  let ram_max := records.foldl (fun m r => max m (r.ram_max_used : WithBot ℚ)) ⊥
  let bandwidth_total := records.foldl (fun s r => s + r.transfer_total) 0
  let disk_used_max := records.foldl (fun m r => max m r.disk_used) 0
  let n : ℚ := records.length
  { dt := merged_dt
    cpu_per_core_avg := cpu_per_core_sum.map (fun s => round2 (s / n))
    cpu_total_avg := round2 (cpu_total_sum / n)
    ram_avg_used := round2 (ram_avg_sum / n)
    ram_min_used := round2 (ram_min.untop' 0)
    ram_max_used := round2 (ram_max.unbot' 0)
    ram_total := r0.ram_total
    disk_used := round2 disk_used_max
    disk_total := r0.disk_total
    transfer_total := round2 bandwidth_total }

/-! ### Configuration (`config.py`) -/

def max1h_record_length : ℕ := 168
def max1d_record_length : ℕ := 30
def max1month_record_length : ℕ := 12

/-! ### Grouping, sorting and slicing helpers used by the rollup drivers -/

/-- `dict.setdefault(key, []).append(r)` on an insertion-ordered dict,
modelled as an ordered association list. -/
def groupInsert (g : List (Key × List Rec)) (k : Key) (r : Rec) : List (Key × List Rec) :=
  match g with
  | [] => [(k, [r])]
  | (k', rs) :: t => if k' = k then (k', rs ++ [r]) :: t else (k', rs) :: groupInsert t k r

/-- The grouping loops of `_push_to_file_1day` / `_push_to_file_1month`. -/
def groupFold (key : Rec → Key) (l : List Rec) (g : List (Key × List Rec)) :
    List (Key × List Rec) :=
  l.foldl (fun g r => groupInsert g (key r) r) g

/-- Merge one group: `merged_dt` is computed from the group's first record
(`recs[0]["datetime"]`), not from the dict key.  Groups are built non-empty,
so the `[]` branch is unreachable. -/
def mergeGroup (dtOf : Key → Key) : Key × List Rec → Rec
  | (_, r0 :: rest) => merge (dtOf r0.dt) r0 rest
  | (_, []) => default

/-- `sorted(l, key=lambda r: r["datetime"])` (stable, ascending). -/
def sortRecords (l : List Rec) : List Rec :=
  l.insertionSort (fun a b => Key.le a.dt b.dt = true)

/-- The Python slice `l[-n:]`.  Note `l[-0:]` is `l[0:]`, the whole list. -/
def takeLast (n : ℕ) (l : List Rec) : List Rec :=
  if n = 0 then l else l.drop (l.length - n)

/-- The pure content of `_push_to_file_1day` once both files are read:
group the hourly records by calendar date, fold the existing daily records
into the same groups by their own `datetime` key, merge each group, sort
ascending by key and keep the last `max1d_record_length`. -/
def pushDailyRecords (data_1h file_records_1d : List Rec) : List Rec :=
  let grouped := groupFold (fun r => r.dt.dateKey) data_1h []
  let grouped := groupFold (fun r => r.dt) file_records_1d grouped
  let daily_records := grouped.map (mergeGroup Key.take10)
  takeLast max1d_record_length (sortRecords daily_records)

/-- The pure content of `_push_to_file_1month`: identical pattern one level
up, keyed by `'%Y-%m'`. -/
def pushMonthlyRecords (data_1day file_records_1month : List Rec) : List Rec :=
  let grouped := groupFold (fun r => r.dt.monthKey) data_1day []
  let grouped := groupFold (fun r => r.dt) file_records_1month grouped
  let monthly_records := grouped.map (mergeGroup Key.monthKey)
  takeLast max1month_record_length (sortRecords monthly_records)

/-! ### The accumulator (`Monitor.__init__` / `update_current_stats`) -/

/-- One sampled snapshot, as consumed by `update_current_stats` (the fields
it reads from the dict). -/
structure Snapshot where
  cpu : List ℚ
  ram_used : ℚ
  disk_used : ℚ
  disk_total : ℚ
  transfer_total : ℚ
deriving DecidableEq, Repr, Inhabited

/-- The mutable accumulator state.  `ram_min` starts at `float("inf")`,
modelled as `⊤ : WithTop ℚ`. -/
structure Acc where
  cpu_per_core_avg : List ℚ
  cpu_total_avg : ℚ
  ram_avg : ℚ
  ram_min : WithTop ℚ
  ram_max : ℚ
  bandwidth_total : ℚ
  disk_used : ℚ
  disk_total : ℚ
  sample_count : ℕ
deriving DecidableEq, Repr

/-- The state established by `Monitor.__init__` (and restored by the reset in
`get_and_reset_stats`). -/
def Acc.init : Acc :=
  { cpu_per_core_avg := []
    cpu_total_avg := 0
    ram_avg := 0
    ram_min := ⊤
    ram_max := 0
    bandwidth_total := 0
    disk_used := 0
    disk_total := 0
    sample_count := 0 }

/-- The per-core update: copy on the first sample (`if not
self.cpu_per_core_avg`), otherwise the incremental average, iterating over
`range(len(cpu))`. -/
def newCores (a : Acc) (s : Snapshot) : List ℚ :=
  if a.cpu_per_core_avg.isEmpty then s.cpu
  else (List.range s.cpu.length).map (fun i =>
    (a.cpu_per_core_avg.getD i 0 * (a.sample_count : ℚ) + s.cpu.getD i 0) /
      ((a.sample_count : ℚ) + 1))

/-- `Monitor.update_current_stats`.  Returns `none` where Python raises:
`IndexError` when the snapshot has more cores than the stored per-core list,
and `ZeroDivisionError` at `sum(...) / total_core` when the updated per-core
list is empty. -/
def update? (a : Acc) (s : Snapshot) : Option Acc :=
  if ¬ a.cpu_per_core_avg.isEmpty ∧ a.cpu_per_core_avg.length < s.cpu.length then
    none
  else if (newCores a s).length = 0 then none
  else some
    { cpu_per_core_avg := newCores a s
      cpu_total_avg := (newCores a s).sum / ((newCores a s).length : ℚ)
      ram_avg :=
        if a.ram_avg = 0 then s.ram_used
        else (a.ram_avg * (a.sample_count : ℚ) + s.ram_used) / ((a.sample_count : ℚ) + 1)
      ram_min := min a.ram_min (s.ram_used : WithTop ℚ)
      ram_max := max a.ram_max s.ram_used
      bandwidth_total := a.bandwidth_total + s.transfer_total
      disk_used := s.disk_used
      disk_total := s.disk_total
      sample_count := a.sample_count + 1 }

/-- Feed a list of snapshots one at a time; any raised exception aborts the
run. -/
def updates (a : Acc) : List Snapshot → Option Acc
  | [] => some a
  | s :: t =>
    match update? a s with
    | none => none
    | some a' => updates a' t

/-- `Monitor.get_and_reset_stats`.  `now` is `datetime.now(utc)` at flush
time and `ram_total_now` the `psutil.virtual_memory().total` reading (both
external inputs).  With `sample_count == 0` it returns `None` and leaves the
state untouched; otherwise it builds the rounded record and resets. -/
def get_and_reset_stats (a : Acc) (now : DT) (ram_total_now : ℚ) : Option Rec × Acc :=
  if a.sample_count = 0 then (none, a)
  else
    (some
      { dt := .inst now
        cpu_per_core_avg := a.cpu_per_core_avg.map round2
        cpu_total_avg := round2 a.cpu_total_avg
        ram_min_used := round2 (a.ram_min.untop' 0)
        ram_max_used := round2 a.ram_max
        ram_avg_used := round2 a.ram_avg
        ram_total := round2 ram_total_now
        disk_used := round2 a.disk_used
        disk_total := round2 a.disk_total
        transfer_total := round2 a.bandwidth_total }, Acc.init)

/-! ### The hourly flush and the cascading store (`push_to_file`) -/

/-- `last_dt.hour == new_dt.hour and last_dt.date() == new_dt.date()`. -/
def sameHourBucket (a b : Key) : Bool :=
  a.hourOf == b.hourOf && a.dateOf == b.dateOf

/-- The list transformation `push_to_file` applies to the hourly series for a
flushed record `stats`: merge into the last record when it falls in the same
calendar hour, otherwise append; then keep only the FIRST
`max1h_record_length` entries when over length. -/
def pushHourlyRecords (file : List Rec) (stats : Rec) : List Rec :=
  let data :=
    match file.getLast? with
    | none => [stats]
    | some last =>
      if sameHourBucket last.dt stats.dt then
        file.dropLast ++ [merge last.dt last [stats]]
      else file ++ [stats]
  if data.length > max1h_record_length then data.take max1h_record_length else data

/-- The three persisted series files; `none` models a missing (or
unparseable) file. -/
structure Files where
  f1h : Option (List Rec)
  f1d : Option (List Rec)
  f1m : Option (List Rec)
deriving DecidableEq, Repr

/-- `Monitor._push_to_file_1day` as a file-state transformer: an unreadable
hourly file or an empty hourly series returns without writing; an unreadable
daily file degrades to the empty series. -/
def pushDailyFile (fs : Files) : Files :=
  match fs.f1h with
  | none => fs
  | some data_1h =>
    if data_1h = [] then fs
    else { fs with f1d := some (pushDailyRecords data_1h (fs.f1d.getD [])) }

/-- `Monitor._push_to_file_1month` as a file-state transformer. -/
def pushMonthlyFile (fs : Files) : Files :=
  match fs.f1d with
  | none => fs
  | some data_1day =>
    if data_1day = [] then fs
    else { fs with f1m := some (pushMonthlyRecords data_1day (fs.f1m.getD [])) }

/-- `Monitor.push_to_file`: flush the accumulator (a `None` flush returns at
once, writing nothing), update the hourly series (a missing hourly file reads
as the empty series), then cascade the daily and monthly rollups. -/
def pushToFile (a : Acc) (now : DT) (ram_total_now : ℚ) (fs : Files) : Acc × Files :=
  match get_and_reset_stats a now ram_total_now with
  | (none, a') => (a', fs)
  | (some stats, a') =>
    let file := fs.f1h.getD []
    let fs1 : Files := { fs with f1h := some (pushHourlyRecords file stats) }
    (a', pushMonthlyFile (pushDailyFile fs1))

/-! ### The query layer -/

/-- How a query can fail: the two `ClientException`s the code raises, plus
the unhandled `FileNotFoundError` from `open()` (not a typed failure). -/
inductive QErr where
  | invalidTimezone
  | noData
  | fileNotFound
deriving DecidableEq, Repr

/-- A resolved `pytz` timezone, abstracted (the zone database is external):
what the query layer does with it is apply the two display conversions
`utc.astimezone(tz).strftime('%m-%d %Hh')` and `...strftime('%Y-%m-%d')`. -/
structure Tz where
  fmt1h : Key → Key
  fmt1day : Key → Key

/-- `Monitor._get_1h_monitor_records`.  `tz?` is the result of the
`pytz.timezone` lookup (`none` = `UnknownTimeZoneError`).  A missing hourly
file first triggers `push_to_file`; if that flush wrote nothing the
subsequent unconditional `open()` raises `FileNotFoundError`. -/
def get_1h_monitor_records (a : Acc) (now : DT) (ram_total_now : ℚ) (fs : Files)
    (tz? : Option Tz) (max_records : ℕ) :
    Except QErr (List Rec) × (Acc × Files) :=
  let st := if fs.f1h.isNone then pushToFile a now ram_total_now fs else (a, fs)
  match st.2.f1h with
  | none => (.error .fileNotFound, st)
  | some data =>
    let records_1h := takeLast max_records data
    match tz? with
    | none => (.error .invalidTimezone, st)
    | some tz => (.ok (records_1h.map (fun r => { r with dt := tz.fmt1h r.dt })), st)

/-- `Monitor._get_1day_monitor_records`: a missing daily file raises
`ClientException("No Data")` before the timezone is looked at. -/
def get_1day_monitor_records (fs : Files) (tz? : Option Tz) (max_records : ℕ) :
    Except QErr (List Rec) :=
  match fs.f1d with
  | none => .error .noData
  | some data =>
    let records_1day := takeLast max_records data
    match tz? with
    | none => .error .invalidTimezone
    | some tz => .ok (records_1day.map (fun r => { r with dt := tz.fmt1day r.dt }))

/-- `Monitor._get_1month_monitor_records`: no timezone handling at all. -/
def get_1month_monitor_records (fs : Files) (max_records : ℕ) :
    Except QErr (List Rec) :=
  match fs.f1m with
  | none => .error .noData
  | some data => .ok (takeLast max_records data)

/-! ### Arithmetic facts about `round2` -/

theorem round_eq_of_abs_sub_lt_half {y : ℚ} {r : ℤ} (h : |y - (r : ℚ)| < 1 / 2) :
    round y = r := by
  rw [round_eq, Int.floor_eq_iff]
  rw [abs_sub_lt_iff] at h
  exact ⟨by linarith [h.1, h.2], by linarith [h.1, h.2]⟩

theorem round2_round2 (x : ℚ) : round2 (round2 x) = round2 x := by
  unfold round2
  rw [show (100 : ℚ) * (((round (100 * x) : ℤ) : ℚ) / 100) = ((round (100 * x) : ℤ) : ℚ) by
    ring, round_intCast]

theorem round2_min_round2 (q : ℚ) : round2 (min q (round2 q)) = round2 q := by
  rcases le_total q (round2 q) with h | h
  · rw [min_eq_left h]
  · rw [min_eq_right h, round2_round2]

theorem round2_max_round2 (q : ℚ) : round2 (max q (round2 q)) = round2 q := by
  rcases le_total q (round2 q) with h | h
  · rw [max_eq_right h, round2_round2]
  · rw [max_eq_left h]

/-- Re-averaging stability: averaging `n` values with mean `s / n` together
with the rounded mean `round2 (s / n)` as one extra input re-rounds to the
same two-decimal value. -/
theorem round2_stable (s : ℚ) (n : ℕ) (hn : 1 ≤ n) :
    round2 ((s + round2 (s / n)) / ((n : ℚ) + 1)) = round2 (s / n) := by
  have hn0 : (0 : ℚ) < (n : ℚ) := by exact_mod_cast hn
  have hn1 : (0 : ℚ) < (n : ℚ) + 1 := by linarith
  unfold round2
  set x : ℚ := 100 * (s / n) with hx
  set r : ℤ := round x with hr
  have key : 100 * ((s + ((r : ℚ) / 100)) / ((n : ℚ) + 1)) = ((n : ℚ) * x + r) / ((n : ℚ) + 1) := by
    rw [hx]
    field_simp
    ring
  rw [key]
  have habs : |x - (r : ℚ)| ≤ 1 / 2 := by rw [hr]; exact abs_sub_round x
  have : |((n : ℚ) * x + r) / ((n : ℚ) + 1) - (r : ℚ)| < 1 / 2 := by
    have expand : ((n : ℚ) * x + r) / ((n : ℚ) + 1) - (r : ℚ) =
        ((n : ℚ) / ((n : ℚ) + 1)) * (x - r) := by field_simp; ring
    rw [expand, abs_mul, abs_of_nonneg (by positivity : (0 : ℚ) ≤ (n : ℚ) / ((n : ℚ) + 1))]
    calc (n : ℚ) / ((n : ℚ) + 1) * |x - (r : ℚ)| ≤ (n : ℚ) / ((n : ℚ) + 1) * (1 / 2) := by
          apply mul_le_mul_of_nonneg_left habs (by positivity)
      _ < 1 * (1 / 2) := by
          apply mul_lt_mul_of_pos_right _ (by norm_num)
          rw [div_lt_one hn1]; linarith
      _ = 1 / 2 := by norm_num
  rw [round_eq_of_abs_sub_lt_half this]

/-! ### Small list facts used below -/

theorem newCores_length (a : Acc) (s : Snapshot) : (newCores a s).length = s.cpu.length := by
  unfold newCores
  split
  · rfl
  · simp

/-! ### Claim C6 -/

/-- C6: `flushAndReset` (`get_and_reset_stats` inside `push_to_file`) on an
accumulator with `sample_count == 0` produces no record and performs no
write: the accumulator and all three series files are returned unchanged. -/
theorem pushToFile_empty_window_noop (a : Acc) (now : DT) (rt : ℚ) (fs : Files)
    (h : a.sample_count = 0) : pushToFile a now rt fs = (a, fs) := by
  simp [pushToFile, get_and_reset_stats, h]

theorem pushToFile_empty_window_noop_witness :
    Acc.init.sample_count = 0 ∧
    pushToFile Acc.init ⟨2025, 1, 1, 0, 0, 0⟩ 32 ⟨none, none, none⟩ =
      (Acc.init, ⟨none, none, none⟩) :=
  ⟨rfl, pushToFile_empty_window_noop Acc.init ⟨2025, 1, 1, 0, 0, 0⟩ 32 ⟨none, none, none⟩ rfl⟩

/-! ### Claim C9 -/

/-- The 24 hourly records of the spec scenario for 2025-01-02:
`cpu_total_avg` values 30..53, `disk.used` values 22..45, bandwidth
values 3..26. -/
def hourly24 : List Rec :=
  (List.range 24).map (fun i =>
    { dt := .inst ⟨2025, 1, 2, i, 0, 0⟩
      cpu_per_core_avg := [(30 + i : ℚ)]
      cpu_total_avg := (30 + i : ℚ)
      ram_avg_used := 1
      ram_min_used := 1
      ram_max_used := 1
      ram_total := 32
      disk_used := (22 + i : ℚ)
      disk_total := 100
      transfer_total := (3 + i : ℚ) })

/-- C9: merging the 24 hourly records of 2025-01-02 through the daily rollup
yields one daily record with `cpu.total_avg = 41.5` (mean), `disk.used = 45`
(max) and `bandwidth.transfer_total = 348` (sum). -/
theorem daily_rollup_scenario_2025_01_02 :
    (pushDailyRecords hourly24 []).map
      (fun r => (r.dt, r.cpu_total_avg, r.disk_used, r.transfer_total)) =
    [(Key.day 2025 1 2, (83 : ℚ) / 2, (45 : ℚ), (348 : ℚ))] := by
  decide

/-! ### Claim C10 -/

/-- An accumulator that has already stored a one-core per-core list, and a
snapshot reporting two cores. -/
def accOneCore : Acc :=
  { Acc.init with cpu_per_core_avg := [50], cpu_total_avg := 50, sample_count := 1 }

/-- C10 counterexample: the snapshot's cpu list is non-empty, yet
`update_current_stats` does not succeed — the list comprehension indexes
`self.cpu_per_core_avg[1]`, which raises `IndexError` before any division,
so the claim's "for every snapshot whose cpu list is non-empty … update
succeeds" is false. -/
theorem update_core_mismatch_counterexample :
    (Snapshot.cpu ⟨[10, 20], 4, 7, 100, 1⟩ ≠ []) ∧
    update? accOneCore ⟨[10, 20], 4, 7, 100, 1⟩ = none := by
  decide

/-- C10 amended: the divisor of `sum(...) / total_core` is the length of the
updated per-core list, and it is positive — and the update succeeds —
whenever the snapshot's cpu list is non-empty and does not exceed the stored
per-core list (in particular on a fresh accumulator, whose list is empty and
gets copied); a fresh accumulator fed an empty cpu list makes the divisor
zero and the update fails with `ZeroDivisionError`. -/
theorem update_divisor_guard :
    (∀ (a : Acc) (s : Snapshot), s.cpu ≠ [] →
        (a.cpu_per_core_avg = [] ∨ s.cpu.length ≤ a.cpu_per_core_avg.length) →
        0 < (newCores a s).length ∧ (update? a s).isSome) ∧
    (∀ s : Snapshot, s.cpu = [] → update? Acc.init s = none) := by
  constructor
  · intro a s hne hcompat
    have hpos : 0 < (newCores a s).length := by
      rw [newCores_length]
      exact List.length_pos.mpr hne
    refine ⟨hpos, ?_⟩
    unfold update?
    rw [if_neg, if_neg (by omega)]
    · rfl
    · rcases hcompat with h | h
      · simp [h]
      · simp only [not_and, not_lt]
        intro _
        exact h
  · intro s hs
    unfold update?
    rw [if_neg (by simp [Acc.init])]
    simp [newCores, Acc.init, hs]

theorem update_divisor_guard_witness :
    (0 < (newCores Acc.init ⟨[7], 1, 2, 3, 4⟩).length ∧
      (update? Acc.init ⟨[7], 1, 2, 3, 4⟩).isSome) ∧
    update? Acc.init ⟨[], 1, 2, 3, 4⟩ = none :=
  ⟨update_divisor_guard.1 Acc.init ⟨[7], 1, 2, 3, 4⟩ (by decide) (Or.inl rfl),
   update_divisor_guard.2 ⟨[], 1, 2, 3, 4⟩ rfl⟩

/-! ### Claim C2 -/

/-- C2: when appending the freshly flushed record pushes the hourly series
over `max1h_record_length`, the flush persists the FIRST
`max1h_record_length` entries of the appended list — equivalently the first
`max1h_record_length` entries of the old series, so the newest record is the
one discarded — and (for any inputs at all) the persisted series never
exceeds `max1h_record_length` entries. -/
theorem hourly_flush_keeps_first (file : List Rec) (stats : Rec)
    (happend : file = [] ∨ ∀ last, file.getLast? = some last →
        sameHourBucket last.dt stats.dt = false)
    (hover : max1h_record_length < (file ++ [stats]).length) :
    pushHourlyRecords file stats = (file ++ [stats]).take max1h_record_length ∧
    pushHourlyRecords file stats = file.take max1h_record_length ∧
    ∀ (f' : List Rec) (s' : Rec), (pushHourlyRecords f' s').length ≤ max1h_record_length := by
  have gen : ∀ data : List Rec,
      (if data.length > max1h_record_length then data.take max1h_record_length
       else data).length ≤ max1h_record_length := by
    intro data
    split
    · next h => simp
    · next h => omega
  have hbound : ∀ (f' : List Rec) (s' : Rec),
      (pushHourlyRecords f' s').length ≤ max1h_record_length := by
    intro f' s'
    unfold pushHourlyRecords
    exact gen _
  rcases happend with rfl | hno
  · simp [max1h_record_length] at hover
  · obtain ⟨last, hlast⟩ : ∃ last, file.getLast? = some last := by
      rcases file.eq_nil_or_concat with rfl | ⟨l, b, rfl⟩
      · simp [max1h_record_length] at hover
      · exact ⟨b, by simp⟩
    have hfl : max1h_record_length ≤ file.length := by
      simp only [List.length_append, List.length_cons, List.length_nil] at hover
      omega
    have hmain : pushHourlyRecords file stats = (file ++ [stats]).take max1h_record_length := by
      unfold pushHourlyRecords
      rw [hlast]
      simp only [hno last hlast, Bool.false_eq_true, if_false]
      rw [if_pos (by simpa using hover)]
    refine ⟨hmain, ?_, hbound⟩
    rw [hmain, List.take_append_of_le_length hfl]

/-- A full-to-capacity hourly series (168 copies of one record) and a new
record in a different hour bucket. -/
def recHour3 : Rec := ⟨.inst ⟨2025, 1, 1, 3, 0, 0⟩, [10], 10, 1, 1, 1, 32, 20, 100, 5⟩

def recHour4 : Rec := ⟨.inst ⟨2025, 1, 1, 4, 0, 0⟩, [12], 12, 1, 1, 1, 32, 20, 100, 5⟩

def fullHourlyFile : List Rec := List.replicate 168 recHour3

theorem hourly_flush_keeps_first_witness :
    pushHourlyRecords fullHourlyFile recHour4 = fullHourlyFile.take max1h_record_length ∧
    (pushHourlyRecords fullHourlyFile recHour4).length ≤ max1h_record_length := by
  have h := hourly_flush_keeps_first fullHourlyFile recHour4
    (Or.inr (fun last hl => by
      have hA : fullHourlyFile.getLast? = some recHour3 := by decide
      rw [hA] at hl
      injection hl with hl'
      rw [← hl']
      decide))
    (by decide)
  exact ⟨h.2.1, h.2.2 fullHourlyFile recHour4⟩

/-! ### Claim C8 -/

/-- C8: a second flush that lands in the same calendar hour (and date) as the
series' last record appends nothing — the last record is replaced by the
merge of the two, keyed by the existing record's datetime — and the series
length is unchanged. -/
theorem same_hour_flush_merges (file : List Rec) (last stats : Rec)
    (hlast : file.getLast? = some last)
    (hsame : sameHourBucket last.dt stats.dt = true)
    (hlen : file.length ≤ max1h_record_length) :
    pushHourlyRecords file stats = file.dropLast ++ [merge last.dt last [stats]] ∧
    (pushHourlyRecords file stats).length = file.length := by
  have hne : file ≠ [] := by
    intro h
    rw [h] at hlast
    simp at hlast
  have hlendrop : (file.dropLast ++ [merge last.dt last [stats]]).length = file.length := by
    have := List.length_pos.mpr hne
    simp [List.length_dropLast]
    omega
  unfold pushHourlyRecords
  rw [hlast]
  simp only [hsame, if_true]
  rw [if_neg (by omega)]
  exact ⟨rfl, hlendrop⟩

def recHour3b : Rec := ⟨.inst ⟨2025, 1, 1, 3, 30, 0⟩, [20], 20, 2, 2, 2, 32, 21, 100, 7⟩

theorem same_hour_flush_merges_witness :
    pushHourlyRecords [recHour3] recHour3b = [merge recHour3.dt recHour3 [recHour3b]] ∧
    (pushHourlyRecords [recHour3] recHour3b).length = 1 := by
  have h := same_hour_flush_merges [recHour3] recHour3 recHour3b rfl (by decide) (by decide)
  simpa using h

/-! ### Claim C3 -/

theorem pushDailyFile_f1h (fs : Files) : (pushDailyFile fs).f1h = fs.f1h := by
  unfold pushDailyFile
  split
  · rfl
  · split
    · rfl
    · rfl

theorem pushMonthlyFile_f1h (fs : Files) : (pushMonthlyFile fs).f1h = fs.f1h := by
  unfold pushMonthlyFile
  split
  · rfl
  · split
    · rfl
    · rfl

/-- C3 counterexample: with the hourly series file missing and the
accumulator holding zero samples, the hourly query DOES fail — the lazy
`push_to_file` writes nothing (empty window), and the unconditional `open()`
that follows raises `FileNotFoundError` — refuting "for the hourly
granularity a missing series file never yields a failure". -/
theorem query_hourly_missing_file_error :
    (get_1h_monitor_records Acc.init ⟨2025, 1, 1, 0, 0, 0⟩ 32 ⟨none, none, none⟩
        (some ⟨id, id⟩) 24).1 = .error .fileNotFound := by
  rfl

/-- C3 amended: a missing daily or monthly file fails with `NoData` (for the
daily query even before the timezone is examined); an unresolvable timezone
fails with `InvalidTimezone` when the series file is present; a missing
hourly file triggers a flush, after which the query returns the (converted)
flushed records when the accumulator held at least one sample — but when the
accumulator is empty the flush writes nothing and the query fails with an
unhandled `FileNotFoundError` instead of returning empty records. -/
theorem query_error_taxonomy :
    (∀ (fs : Files) (tz? : Option Tz) (m : ℕ), fs.f1d = none →
        get_1day_monitor_records fs tz? m = .error .noData) ∧
    (∀ (fs : Files) (m : ℕ), fs.f1m = none →
        get_1month_monitor_records fs m = .error .noData) ∧
    (∀ (fs : Files) (data : List Rec) (m : ℕ), fs.f1d = some data →
        get_1day_monitor_records fs none m = .error .invalidTimezone) ∧
    (∀ (a : Acc) (now : DT) (rt : ℚ) (fs : Files) (data : List Rec) (m : ℕ),
        fs.f1h = some data →
        (get_1h_monitor_records a now rt fs none m).1 = .error .invalidTimezone) ∧
    (∀ (a : Acc) (now : DT) (rt : ℚ) (fs : Files) (tz : Tz) (m : ℕ)
        (stats : Rec) (a' : Acc), fs.f1h = none → a.sample_count ≠ 0 →
        get_and_reset_stats a now rt = (some stats, a') →
        (get_1h_monitor_records a now rt fs (some tz) m).1 =
          .ok ((takeLast m (pushHourlyRecords [] stats)).map
            (fun r => { r with dt := tz.fmt1h r.dt }))) ∧
    (∀ (a : Acc) (now : DT) (rt : ℚ) (fs : Files) (tz? : Option Tz) (m : ℕ),
        fs.f1h = none → a.sample_count = 0 →
        (get_1h_monitor_records a now rt fs tz? m).1 = .error .fileNotFound) := by
  refine ⟨?_, ?_, ?_, ?_, ?_, ?_⟩
  · intro fs tz? m hd
    unfold get_1day_monitor_records
    rw [hd]
  · intro fs m hm
    unfold get_1month_monitor_records
    rw [hm]
  · intro fs data m hd
    unfold get_1day_monitor_records
    rw [hd]
  · intro a now rt fs data m hf
    unfold get_1h_monitor_records
    rw [if_neg (by rw [hf]; simp)]
    simp only [hf]
  · intro a now rt fs tz m stats a' hf hs hreset
    have hpush : (pushToFile a now rt fs).2.f1h =
        some (pushHourlyRecords (fs.f1h.getD []) stats) := by
      unfold pushToFile
      rw [hreset]
      rw [pushMonthlyFile_f1h, pushDailyFile_f1h]
    rw [hf] at hpush
    unfold get_1h_monitor_records
    rw [if_pos (by rw [hf]; rfl)]
    simp only [hpush, Option.getD_none]
  · intro a now rt fs tz? m hf hs
    have hnoop : pushToFile a now rt fs = (a, fs) := by
      simp [pushToFile, get_and_reset_stats, hs]
    unfold get_1h_monitor_records
    rw [if_pos (by rw [hf]; rfl)]
    simp only [hnoop, hf]

/-- An accumulator holding exactly one sample. -/
def accOne : Acc :=
  { cpu_per_core_avg := [50]
    cpu_total_avg := 50
    ram_avg := 4
    ram_min := (4 : ℚ)
    ram_max := 4
    bandwidth_total := 1
    disk_used := 7
    disk_total := 100
    sample_count := 1 }

/-- The record `get_and_reset_stats` produces from `accOne` at
2025-01-01T00:00:00Z with 32 GB of RAM installed. -/
def statsOne : Rec := ⟨.inst ⟨2025, 1, 1, 0, 0, 0⟩, [50], 50, 4, 4, 4, 32, 7, 100, 1⟩

def tzId : Tz := ⟨id, id⟩

theorem query_error_taxonomy_witness :
    get_1day_monitor_records ⟨none, none, none⟩ none 7 = .error .noData ∧
    get_1month_monitor_records ⟨none, none, none⟩ 12 = .error .noData ∧
    get_1day_monitor_records ⟨none, some [], none⟩ none 7 = .error .invalidTimezone ∧
    (get_1h_monitor_records accOne ⟨2025, 1, 1, 0, 0, 0⟩ 32 ⟨some [], none, none⟩
        none 24).1 = .error .invalidTimezone ∧
    (get_1h_monitor_records accOne ⟨2025, 1, 1, 0, 0, 0⟩ 32 ⟨none, none, none⟩
        (some tzId) 24).1 =
      .ok ((takeLast 24 (pushHourlyRecords [] statsOne)).map
        (fun r => { r with dt := tzId.fmt1h r.dt })) ∧
    (get_1h_monitor_records Acc.init ⟨2025, 1, 1, 0, 0, 0⟩ 32 ⟨none, none, none⟩
        (some tzId) 12).1 = .error .fileNotFound :=
  ⟨query_error_taxonomy.1 ⟨none, none, none⟩ none 7 rfl,
   query_error_taxonomy.2.1 ⟨none, none, none⟩ 12 rfl,
   query_error_taxonomy.2.2.1 ⟨none, some [], none⟩ [] 7 rfl,
   query_error_taxonomy.2.2.2.1 accOne ⟨2025, 1, 1, 0, 0, 0⟩ 32 ⟨some [], none, none⟩ [] 24 rfl,
   query_error_taxonomy.2.2.2.2.1 accOne ⟨2025, 1, 1, 0, 0, 0⟩ 32 ⟨none, none, none⟩ tzId 24
     statsOne Acc.init (by decide) (by decide) (by decide),
   query_error_taxonomy.2.2.2.2.2 Acc.init ⟨2025, 1, 1, 0, 0, 0⟩ 32 ⟨none, none, none⟩
     (some tzId) 12 rfl rfl⟩

/-! ### Claims C5 and C7: the RAM running statistics -/

/-- Field equations for a successful `update_current_stats` call. -/
theorem update?_eq_some_fields {a : Acc} {s : Snapshot} {a' : Acc}
    (h : update? a s = some a') :
    a'.ram_avg = (if a.ram_avg = 0 then s.ram_used
      else (a.ram_avg * (a.sample_count : ℚ) + s.ram_used) / ((a.sample_count : ℚ) + 1)) ∧
    a'.ram_min = min a.ram_min (s.ram_used : WithTop ℚ) ∧
    a'.ram_max = max a.ram_max s.ram_used ∧
    a'.sample_count = a.sample_count + 1 := by
  unfold update? at h
  split at h
  · exact absurd h (by simp)
  · split at h
    · exact absurd h (by simp)
    · injection h with h'
      rw [← h']
      exact ⟨rfl, rfl, rfl, rfl⟩

/-- One successful update establishes the RAM ordering invariant, from any
state whose running average is zero (the falsy `if not self.ram_avg` branch
resets the average to the new value) or already satisfies the invariant. -/
theorem update?_ram_inv {a a' : Acc} {s : Snapshot}
    (ha : a.ram_avg = 0 ∨ (a.ram_min ≤ (a.ram_avg : WithTop ℚ) ∧ a.ram_avg ≤ a.ram_max))
    (h : update? a s = some a') :
    a'.ram_min ≤ (a'.ram_avg : WithTop ℚ) ∧ a'.ram_avg ≤ a'.ram_max := by
  obtain ⟨havg, hmin, hmax, -⟩ := update?_eq_some_fields h
  rw [havg, hmin, hmax]
  by_cases h0 : a.ram_avg = 0
  · rw [if_pos h0]
    exact ⟨min_le_right _ _, le_max_right _ _⟩
  · rw [if_neg h0]
    rcases ha with h' | ⟨h1, h2⟩
    · exact absurd h' h0
    have hn : (0 : ℚ) ≤ (a.sample_count : ℚ) := Nat.cast_nonneg _
    have hn1 : (0 : ℚ) < (a.sample_count : ℚ) + 1 := by linarith
    obtain ⟨q, hq, hqle⟩ := WithTop.le_coe_iff.mp h1
    constructor
    · rw [hq, ← WithTop.coe_min, WithTop.coe_le_coe, le_div_iff₀ hn1]
      have m1 : min q s.ram_used ≤ q := min_le_left _ _
      have m2 : min q s.ram_used ≤ s.ram_used := min_le_right _ _
      nlinarith [mul_le_mul_of_nonneg_right (le_trans m1 hqle) hn]
    · rw [div_le_iff₀ hn1]
      have m1 : a.ram_avg ≤ max a.ram_max s.ram_used := le_trans h2 (le_max_left _ _)
      have m2 : s.ram_used ≤ max a.ram_max s.ram_used := le_max_right _ _
      nlinarith [mul_le_mul_of_nonneg_right m1 hn]

theorem updates_ram_inv : ∀ (l : List Snapshot) (a a' : Acc),
    (a.ram_avg = 0 ∨ (a.ram_min ≤ (a.ram_avg : WithTop ℚ) ∧ a.ram_avg ≤ a.ram_max)) →
    l ≠ [] → updates a l = some a' →
    a'.ram_min ≤ (a'.ram_avg : WithTop ℚ) ∧ a'.ram_avg ≤ a'.ram_max := by
  intro l
  induction l with
  | nil => exact fun a a' _ hne _ => absurd rfl hne
  | cons s t ih =>
    intro a a' ha _ hupd
    unfold updates at hupd
    cases hu : update? a s with
    | none => rw [hu] at hupd; exact absurd hupd (by simp)
    | some a₁ =>
      rw [hu] at hupd
      have h₁ := update?_ram_inv ha hu
      cases t with
      | nil =>
        injection hupd with h'
        rw [← h']
        exact h₁
      | cons s' t' => exact ih a₁ a' (Or.inr h₁) (by simp) hupd

/-- C5: for every non-empty snapshot sequence fed to a fresh accumulator,
after every update `ram_min ≤ ram_avg ≤ ram_max` holds (every prefix of a
sequence is itself such a sequence, so this covers every intermediate
state). -/
theorem ram_min_avg_max_invariant (l : List Snapshot) (a' : Acc) (hne : l ≠ [])
    (h : updates Acc.init l = some a') :
    a'.ram_min ≤ (a'.ram_avg : WithTop ℚ) ∧ a'.ram_avg ≤ a'.ram_max :=
  updates_ram_inv l Acc.init a' (Or.inl rfl) hne h

theorem ram_min_avg_max_invariant_witness :
    updates Acc.init [⟨[50], 4, 7, 100, 1⟩] = some accOne ∧
    (accOne.ram_min ≤ (accOne.ram_avg : WithTop ℚ) ∧ accOne.ram_avg ≤ accOne.ram_max) :=
  ⟨by decide, ram_min_avg_max_invariant [⟨[50], 4, 7, 100, 1⟩] accOne (by decide) (by decide)⟩

/-- C7 counterexample: feeding ram values `0` then `6` to a fresh accumulator
leaves `ram_avg = 6`, not the arithmetic mean `3`: the guard
`if not self.ram_avg` treats the legitimate running average `0.0` as unset
and restarts the average from the second value. -/
theorem ram_avg_mean_counterexample :
    (updates Acc.init [⟨[50], 0, 7, 100, 1⟩, ⟨[50], 6, 7, 100, 1⟩]).map Acc.ram_avg =
      some 6 ∧
    some ((([⟨[50], 0, 7, 100, 1⟩, ⟨[50], 6, 7, 100, 1⟩] : List Snapshot).map
        Snapshot.ram_used).sum / 2) ≠
      (updates Acc.init [⟨[50], 0, 7, 100, 1⟩, ⟨[50], 6, 7, 100, 1⟩]).map Acc.ram_avg := by
  decide

/-- Running-mean invariant along a suffix, once the running average is
positive (so the falsy-zero reset branch can no longer fire). -/
theorem updates_ram_mean : ∀ (t : List Snapshot) (a a' : Acc),
    (∀ s ∈ t, 0 < s.ram_used) → 0 < a.ram_avg → 0 < a.sample_count →
    updates a t = some a' →
    a'.ram_avg = (a.ram_avg * (a.sample_count : ℚ) + (t.map Snapshot.ram_used).sum) /
        ((a.sample_count : ℚ) + (t.length : ℚ)) ∧
    a'.sample_count = a.sample_count + t.length := by
  intro t
  induction t with
  | nil =>
    intro a a' _ hpos hn hupd
    injection hupd with h'
    subst h'
    have hne : ((a.sample_count : ℚ)) ≠ 0 := by
      exact_mod_cast Nat.pos_iff_ne_zero.mp hn
    constructor
    · simp [mul_div_assoc, mul_div_cancel_right₀ _ hne]
    · simp
  | cons s t ih =>
    intro a a' hall hpos hn hupd
    unfold updates at hupd
    cases hu : update? a s with
    | none => rw [hu] at hupd; exact absurd hupd (by simp)
    | some a₁ =>
      rw [hu] at hupd
      obtain ⟨havg, -, -, hcount⟩ := update?_eq_some_fields hu
      have hvpos : 0 < s.ram_used := hall s (by simp)
      have hnq : (0 : ℚ) ≤ (a.sample_count : ℚ) := Nat.cast_nonneg _
      have havg₁ : a₁.ram_avg =
          (a.ram_avg * (a.sample_count : ℚ) + s.ram_used) / ((a.sample_count : ℚ) + 1) := by
        rw [havg, if_neg (ne_of_gt hpos)]
      have hpos₁ : 0 < a₁.ram_avg := by
        rw [havg₁]
        apply div_pos _ (by linarith)
        nlinarith
      have hrec := ih a₁ a' (fun s' hs' => hall s' (List.mem_cons_of_mem _ hs'))
        hpos₁ (by omega) hupd
      rw [havg₁, hcount] at hrec
      refine ⟨?_, by rw [hrec.2]; simp [List.length_cons]; omega⟩
      rw [hrec.1]
      have d1 : ((a.sample_count : ℚ) + 1) ≠ 0 := by linarith
      have hlen : (0 : ℚ) ≤ (t.length : ℚ) := Nat.cast_nonneg _
      have d2 : ((a.sample_count : ℚ) + 1 + (t.length : ℚ)) ≠ 0 := by linarith
      have d3 : ((a.sample_count : ℚ) + ((s :: t).length : ℚ)) ≠ 0 := by
        simp only [List.length_cons]
        push_cast
        linarith
      push_cast
      field_simp
      ring

/-- C7 amended: when every observed ram value is positive (so the falsy
`if not self.ram_avg` reset can never re-trigger), after `k ≥ 1` updates the
running `ram_avg` equals the arithmetic mean of the `k` observed values, by
the incremental formula `(old_avg * n + new) / (n + 1)` at every call after
the first.  (With a zero mid-sequence value the average restarts — see the
counterexample.) -/
theorem ram_avg_is_mean_of_positives (l : List Snapshot) (a' : Acc)
    (hpos : ∀ s ∈ l, 0 < s.ram_used) (hne : l ≠ [])
    (h : updates Acc.init l = some a') :
    a'.ram_avg = (l.map Snapshot.ram_used).sum / (l.length : ℚ) := by
  cases l with
  | nil => exact absurd rfl hne
  | cons s t =>
    unfold updates at h
    cases hu : update? Acc.init s with
    | none => rw [hu] at h; exact absurd h (by simp)
    | some a₁ =>
      rw [hu] at h
      obtain ⟨havg, -, -, hcount⟩ := update?_eq_some_fields hu
      have havg₁ : a₁.ram_avg = s.ram_used := by
        rw [havg, if_pos (show Acc.init.ram_avg = 0 from rfl)]
      have hrec := updates_ram_mean t a₁ a'
        (fun s' hs' => hpos s' (List.mem_cons_of_mem _ hs'))
        (by rw [havg₁]; exact hpos s (by simp)) (by omega) h
      rw [havg₁, hcount] at hrec
      rw [hrec.1]
      simp only [List.map_cons, List.sum_cons, List.length_cons, Acc.init]
      push_cast
      ring_nf

theorem ram_avg_is_mean_of_positives_witness :
    updates Acc.init [⟨[50], 4, 7, 100, 1⟩, ⟨[50], 6, 7, 100, 1⟩] =
      some ⟨[50], 50, 5, (4 : ℚ), 6, 2, 7, 100, 2⟩ ∧
    Acc.ram_avg ⟨[50], 50, 5, (4 : ℚ), 6, 2, 7, 100, 2⟩ =
      (([⟨[50], 4, 7, 100, 1⟩, ⟨[50], 6, 7, 100, 1⟩] : List Snapshot).map
        Snapshot.ram_used).sum /
        (([⟨[50], 4, 7, 100, 1⟩, ⟨[50], 6, 7, 100, 1⟩] : List Snapshot).length : ℚ) :=
  ⟨by decide,
   ram_avg_is_mean_of_positives _ _ (by decide) (by decide) (by decide)⟩

end Monitor

namespace Monitor

/-! ### Claim C4: merge under permutation of its inputs -/

theorem addCores_nil (r : List ℚ) : addCores [] r = [] := by
  cases r <;> rfl

theorem addCores_nil_right (z : List ℚ) : addCores z [] = z := by
  cases z <;> rfl

theorem addCores_right_comm (z r s : List ℚ) :
    addCores (addCores z r) s = addCores (addCores z s) r := by
  induction z generalizing r s with
  | nil => rw [addCores_nil, addCores_nil, addCores_nil]
  | cons a z ih =>
    cases r with
    | nil => rw [addCores_nil_right, addCores_nil_right]
    | cons v r' =>
      cases s with
      | nil => rw [addCores_nil_right, addCores_nil_right]
      | cons w s' =>
        show (a + v + w) :: addCores (addCores z r') s' =
          (a + w + v) :: addCores (addCores z s') r'
        rw [ih]
        congr 1
        ring

theorem max_swap_right {α : Type} [LinearOrder α] (a b c : α) :
    max (max a b) c = max (max a c) b := by
  rw [max_assoc, max_comm b c, ← max_assoc]

/-- C4 counterexample: `ram.total` and `disk.total` are copied from
`records[0]`, so permuting the inputs changes these numeric outputs whenever
the inputs disagree on them. -/
theorem merge_perm_counterexample :
    ([⟨.inst ⟨2025, 1, 2, 5, 0, 0⟩, [10], 10, 1, 1, 1, 32, 20, 100, 10⟩,
       ⟨.inst ⟨2025, 1, 2, 6, 0, 0⟩, [20], 20, 2, 2, 2, 64, 30, 200, 10⟩] : List Rec).Perm
      [⟨.inst ⟨2025, 1, 2, 6, 0, 0⟩, [20], 20, 2, 2, 2, 64, 30, 200, 10⟩,
       ⟨.inst ⟨2025, 1, 2, 5, 0, 0⟩, [10], 10, 1, 1, 1, 32, 20, 100, 10⟩] ∧
    (merge (Key.day 2025 1 2) ⟨.inst ⟨2025, 1, 2, 5, 0, 0⟩, [10], 10, 1, 1, 1, 32, 20, 100, 10⟩
        [⟨.inst ⟨2025, 1, 2, 6, 0, 0⟩, [20], 20, 2, 2, 2, 64, 30, 200, 10⟩]).ram_total ≠
      (merge (Key.day 2025 1 2) ⟨.inst ⟨2025, 1, 2, 6, 0, 0⟩, [20], 20, 2, 2, 2, 64, 30, 200, 10⟩
        [⟨.inst ⟨2025, 1, 2, 5, 0, 0⟩, [10], 10, 1, 1, 1, 32, 20, 100, 10⟩]).ram_total ∧
    (merge (Key.day 2025 1 2) ⟨.inst ⟨2025, 1, 2, 5, 0, 0⟩, [10], 10, 1, 1, 1, 32, 20, 100, 10⟩
        [⟨.inst ⟨2025, 1, 2, 6, 0, 0⟩, [20], 20, 2, 2, 2, 64, 30, 200, 10⟩]).disk_total ≠
      (merge (Key.day 2025 1 2) ⟨.inst ⟨2025, 1, 2, 6, 0, 0⟩, [20], 20, 2, 2, 2, 64, 30, 200, 10⟩
        [⟨.inst ⟨2025, 1, 2, 5, 0, 0⟩, [10], 10, 1, 1, 1, 32, 20, 100, 10⟩]).disk_total := by
  refine ⟨by decide, by decide, by decide⟩

/-- C4 amended: for a non-empty records list whose per-core lists all share
one length, every permutation yields the same cpu per-core and total
averages, ram avg/min/max, disk used and bandwidth total, and in both cases
the output datetime is exactly the caller-supplied bucket key; `ram.total`
and `disk.total`, however, are copied from the first input record, so
permutation preserves them only when the inputs agree on them (see the
counterexample). -/
theorem merge_perm_invariant (k : Key) (r0 r0' : Rec) (rest rest' : List Rec)
    (hperm : (r0 :: rest).Perm (r0' :: rest'))
    (hlen : ∀ r ∈ r0 :: rest, r.cpu_per_core_avg.length = r0.cpu_per_core_avg.length) :
    (merge k r0 rest).cpu_per_core_avg = (merge k r0' rest').cpu_per_core_avg ∧
    (merge k r0 rest).cpu_total_avg = (merge k r0' rest').cpu_total_avg ∧
    (merge k r0 rest).ram_avg_used = (merge k r0' rest').ram_avg_used ∧
    (merge k r0 rest).ram_min_used = (merge k r0' rest').ram_min_used ∧
    (merge k r0 rest).ram_max_used = (merge k r0' rest').ram_max_used ∧
    (merge k r0 rest).disk_used = (merge k r0' rest').disk_used ∧
    (merge k r0 rest).transfer_total = (merge k r0' rest').transfer_total ∧
    (merge k r0 rest).dt = k ∧ (merge k r0' rest').dt = k := by
  have hcount : ((r0 :: rest).length : ℚ) = ((r0' :: rest').length : ℚ) := by
    rw [hperm.length_eq]
  have hL : r0'.cpu_per_core_avg.length = r0.cpu_per_core_avg.length :=
    hlen r0' (hperm.mem_iff.mpr (List.mem_cons_self _ _))
  have hcpu : (r0 :: rest).foldl (fun acc r => addCores acc r.cpu_per_core_avg)
        (List.replicate r0.cpu_per_core_avg.length 0) =
      (r0' :: rest').foldl (fun acc r => addCores acc r.cpu_per_core_avg)
        (List.replicate r0'.cpu_per_core_avg.length 0) := by
    rw [hL]
    exact hperm.foldl_eq' (fun x _ y _ z => addCores_right_comm z _ _) _
  have hct : (r0 :: rest).foldl (fun s r => s + r.cpu_total_avg) 0 =
      (r0' :: rest').foldl (fun s r => s + r.cpu_total_avg) 0 :=
    hperm.foldl_eq' (fun x _ y _ z => by ring) 0
  have hra : (r0 :: rest).foldl (fun s r => s + r.ram_avg_used) 0 =
      (r0' :: rest').foldl (fun s r => s + r.ram_avg_used) 0 :=
    hperm.foldl_eq' (fun x _ y _ z => by ring) 0
  have hmin : (r0 :: rest).foldl (fun m r => min m (r.ram_min_used : WithTop ℚ)) ⊤ =
      (r0' :: rest').foldl (fun m r => min m (r.ram_min_used : WithTop ℚ)) ⊤ :=
    hperm.foldl_eq' (fun x _ y _ z =>
      min_right_comm z (x.ram_min_used : WithTop ℚ) (y.ram_min_used : WithTop ℚ)) ⊤
  have hmax : (r0 :: rest).foldl (fun m r => max m (r.ram_max_used : WithBot ℚ)) ⊥ =
      (r0' :: rest').foldl (fun m r => max m (r.ram_max_used : WithBot ℚ)) ⊥ :=
    hperm.foldl_eq' (fun x _ y _ z =>
      max_swap_right z (x.ram_max_used : WithBot ℚ) (y.ram_max_used : WithBot ℚ)) ⊥
  have hdisk : (r0 :: rest).foldl (fun m r => max m r.disk_used) 0 =
      (r0' :: rest').foldl (fun m r => max m r.disk_used) 0 :=
    hperm.foldl_eq' (fun x _ y _ z => max_swap_right z x.disk_used y.disk_used) 0
  have hbw : (r0 :: rest).foldl (fun s r => s + r.transfer_total) 0 =
      (r0' :: rest').foldl (fun s r => s + r.transfer_total) 0 :=
    hperm.foldl_eq' (fun x _ y _ z => by ring) 0
  unfold merge
  refine ⟨?_, ?_, ?_, ?_, ?_, ?_, ?_, rfl, rfl⟩
  · dsimp only
    rw [hcpu, hcount]
  · dsimp only
    rw [hct, hcount]
  · dsimp only
    rw [hra, hcount]
  · dsimp only
    rw [hmin]
  · dsimp only
    rw [hmax]
  · dsimp only
    rw [hdisk]
  · dsimp only
    rw [hbw]

theorem merge_perm_invariant_witness :
    (merge (Key.day 2025 1 2) ⟨.inst ⟨2025, 1, 2, 5, 0, 0⟩, [10], 10, 1, 1, 1, 32, 20, 100, 10⟩
        [⟨.inst ⟨2025, 1, 2, 6, 0, 0⟩, [20], 20, 2, 2, 2, 64, 30, 200, 10⟩]).cpu_total_avg =
      (merge (Key.day 2025 1 2) ⟨.inst ⟨2025, 1, 2, 6, 0, 0⟩, [20], 20, 2, 2, 2, 64, 30, 200, 10⟩
        [⟨.inst ⟨2025, 1, 2, 5, 0, 0⟩, [10], 10, 1, 1, 1, 32, 20, 100, 10⟩]).cpu_total_avg ∧
    (merge (Key.day 2025 1 2) ⟨.inst ⟨2025, 1, 2, 5, 0, 0⟩, [10], 10, 1, 1, 1, 32, 20, 100, 10⟩
        [⟨.inst ⟨2025, 1, 2, 6, 0, 0⟩, [20], 20, 2, 2, 2, 64, 30, 200, 10⟩]).dt =
      Key.day 2025 1 2 := by
  have h := merge_perm_invariant (Key.day 2025 1 2)
    ⟨.inst ⟨2025, 1, 2, 5, 0, 0⟩, [10], 10, 1, 1, 1, 32, 20, 100, 10⟩
    ⟨.inst ⟨2025, 1, 2, 6, 0, 0⟩, [20], 20, 2, 2, 2, 64, 30, 200, 10⟩
    [⟨.inst ⟨2025, 1, 2, 6, 0, 0⟩, [20], 20, 2, 2, 2, 64, 30, 200, 10⟩]
    [⟨.inst ⟨2025, 1, 2, 5, 0, 0⟩, [10], 10, 1, 1, 1, 32, 20, 100, 10⟩]
    (by decide) (by decide)
  exact ⟨h.2.1, h.2.2.2.2.2.2.2.1⟩

end Monitor

namespace Monitor

/-! ### Claim C1: re-running the rollups on unchanged inputs -/

theorem addCores_self_map (g : ℚ → ℚ) : ∀ S : List ℚ,
    addCores S (S.map g) = S.map (fun s => s + g s) := by
  intro S
  induction S with
  | nil => rfl
  | cons a S ih =>
    show (a + g a) :: addCores S (S.map g) = _
    rw [ih]
    rfl

theorem round2_min_refold (M : WithTop ℚ) :
    round2 ((min M ((round2 (M.untop' 0) : ℚ) : WithTop ℚ)).untop' 0) =
      round2 (M.untop' 0) := by
  induction M using WithTop.recTopCoe with
  | top =>
    rw [WithTop.untop'_top, min_comm, min_eq_left le_top, WithTop.untop'_coe]
    exact round2_round2 0
  | coe q =>
    rw [WithTop.untop'_coe, ← WithTop.coe_min, WithTop.untop'_coe]
    exact round2_min_round2 q

theorem round2_max_refold (M : WithBot ℚ) :
    round2 ((max M ((round2 (M.unbot' 0) : ℚ) : WithBot ℚ)).unbot' 0) =
      round2 (M.unbot' 0) := by
  induction M using WithBot.recBotCoe with
  | bot =>
    rw [WithBot.unbot'_bot, max_comm, max_eq_left bot_le, WithBot.unbot'_coe]
    exact round2_round2 0
  | coe q =>
    rw [WithBot.unbot'_coe, ← WithBot.coe_max, WithBot.unbot'_coe]
    exact round2_max_round2 q

/-- Re-merging a merged record into the group it came from changes nothing
but `bandwidth.transfer_total`, which is re-added. -/
theorem merge_refold (k : Key) (r0 : Rec) (rest : List Rec) :
    merge k r0 (rest ++ [merge k r0 rest]) =
      { merge k r0 rest with
        transfer_total := round2
          ((r0 :: rest).foldl (fun s r => s + r.transfer_total) 0 +
            (merge k r0 rest).transfer_total) } := by
  have hn : 1 ≤ (r0 :: rest).length := by simp
  set M := merge k r0 rest with hM
  have hsplit : r0 :: (rest ++ [M]) = (r0 :: rest) ++ [M] := by simp
  have hMcpu : M.cpu_per_core_avg =
      ((r0 :: rest).foldl (fun acc r => addCores acc r.cpu_per_core_avg)
        (List.replicate r0.cpu_per_core_avg.length 0)).map
        (fun s => round2 (s / ((r0 :: rest).length : ℚ))) := by rw [hM]; rfl
  have hMct : M.cpu_total_avg =
      round2 ((r0 :: rest).foldl (fun s r => s + r.cpu_total_avg) 0 /
        ((r0 :: rest).length : ℚ)) := by rw [hM]; rfl
  have hMra : M.ram_avg_used =
      round2 ((r0 :: rest).foldl (fun s r => s + r.ram_avg_used) 0 /
        ((r0 :: rest).length : ℚ)) := by rw [hM]; rfl
  have hMmin : M.ram_min_used =
      round2 (((r0 :: rest).foldl (fun m r => min m (r.ram_min_used : WithTop ℚ)) ⊤).untop' 0) := by
    rw [hM]; rfl
  have hMmax : M.ram_max_used =
      round2 (((r0 :: rest).foldl (fun m r => max m (r.ram_max_used : WithBot ℚ)) ⊥).unbot' 0) := by
    rw [hM]; rfl
  have hMdisk : M.disk_used =
      round2 ((r0 :: rest).foldl (fun m r => max m r.disk_used) 0) := by rw [hM]; rfl
  have hlen2 : ((((r0 :: rest) ++ [M]).length : ℕ) : ℚ) =
      (((r0 :: rest).length : ℕ) : ℚ) + 1 := by
    rw [List.length_append]
    push_cast
    simp
  unfold merge
  dsimp only
  rw [hsplit]
  simp only [List.foldl_concat, hlen2]
  congr 1
  · -- cpu_per_core_avg
    rw [hMcpu, addCores_self_map, List.map_map]
    refine List.map_congr_left (fun s _ => ?_)
    show round2 ((s + round2 (s / ((r0 :: rest).length : ℚ))) /
      (((r0 :: rest).length : ℚ) + 1)) = round2 (s / ((r0 :: rest).length : ℚ))
    exact round2_stable s (r0 :: rest).length hn
  · -- cpu_total_avg
    rw [hMct]
    exact round2_stable _ (r0 :: rest).length hn
  · -- ram_avg_used
    rw [hMra]
    exact round2_stable _ (r0 :: rest).length hn
  · -- ram_min_used
    rw [hMmin]
    exact round2_min_refold _
  · -- ram_max_used
    rw [hMmax]
    exact round2_max_refold _
  · -- disk_used
    rw [hMdisk]
    exact round2_max_round2 _

end Monitor

namespace Monitor

theorem groupInsert_hit (k : Key) (acc : List Rec) (r : Rec) :
    groupInsert [(k, acc)] k r = [(k, acc ++ [r])] := by
  simp [groupInsert]

theorem groupFold_const (f : Rec → Key) (k : Key) :
    ∀ (l : List Rec) (acc : List Rec), (∀ r ∈ l, f r = k) →
      groupFold f l [(k, acc)] = [(k, acc ++ l)] := by
  intro l
  induction l with
  | nil =>
    intro acc _
    simp [groupFold]
  | cons r t ih =>
    intro acc hall
    show groupFold f t (groupInsert [(k, acc)] (f r) r) = _
    rw [hall r (List.mem_cons_self _ _), groupInsert_hit]
    rw [ih (acc ++ [r]) (fun x hx => hall x (List.mem_cons_of_mem _ hx))]
    simp

theorem groupFold_const_from_nil (f : Rec → Key) (k : Key) (r0 : Rec) (rest : List Rec)
    (hall : ∀ r ∈ r0 :: rest, f r = k) :
    groupFold f (r0 :: rest) [] = [(k, r0 :: rest)] := by
  show groupFold f rest (groupInsert [] (f r0) r0) = _
  rw [hall r0 (List.mem_cons_self _ _)]
  show groupFold f rest [(k, [r0])] = _
  rw [groupFold_const f k rest [r0] (fun x hx => hall x (List.mem_cons_of_mem _ hx))]
  simp

theorem sortRecords_singleton (r : Rec) : sortRecords [r] = [r] := rfl

theorem takeLast_singleton (n : ℕ) (r : Rec) (hn : n ≠ 0) : takeLast n [r] = [r] := by
  have h1 : ([r] : List Rec).length = 1 := rfl
  unfold takeLast
  rw [if_neg hn, h1, show 1 - n = 0 by omega]
  rfl

/-- A single hourly record for 2025-01-02 with 10 MB of bandwidth. -/
def h1rec : Rec := ⟨.inst ⟨2025, 1, 2, 5, 0, 0⟩, [10], 10, 1, 1, 1, 32, 20, 100, 10⟩

/-- A single daily record for 2025-01-02 with 10 MB of bandwidth. -/
def d1rec : Rec := ⟨.day 2025 1 2, [10], 10, 1, 1, 1, 32, 20, 100, 10⟩

/-- C1 counterexample: with the hourly series unchanged, running the daily
rollup a second time folds the daily record written by the first run back
into its date's group, so `bandwidth.transfer_total` doubles (10 → 20) and
the output file differs; the monthly rollup re-run diverges the same way. -/
theorem rollup_rerun_counterexample :
    pushDailyRecords [h1rec] (pushDailyRecords [h1rec] []) ≠ pushDailyRecords [h1rec] [] ∧
    (pushDailyRecords [h1rec] []).map Rec.transfer_total = [10] ∧
    (pushDailyRecords [h1rec] (pushDailyRecords [h1rec] [])).map Rec.transfer_total = [20] ∧
    pushMonthlyRecords [d1rec] (pushMonthlyRecords [d1rec] []) ≠
      pushMonthlyRecords [d1rec] [] := by
  refine ⟨by decide, by decide, by decide, by decide⟩

/-- C1 amended: the rollups are NOT idempotent.  For a single-bucket input
series and an initially empty output file, the first run writes the merged
record; the second run re-merges that record into the same group, producing
the same record in every field EXCEPT `bandwidth.transfer_total`, which is
re-added (it becomes `round2` of the bucket's input sum plus the previous
output value).  The same holds for the monthly stage. -/
theorem pushDaily_pushMonthly_rerun_refold :
    (∀ (r0 : Rec) (rest : List Rec) (y mo d : ℕ),
      (∀ r ∈ r0 :: rest, r.dt.dateKey = Key.day y mo d ∧ r.dt.take10 = Key.day y mo d) →
      pushDailyRecords (r0 :: rest) [] = [merge (Key.day y mo d) r0 rest] ∧
      pushDailyRecords (r0 :: rest) [merge (Key.day y mo d) r0 rest] =
        [{ merge (Key.day y mo d) r0 rest with
            transfer_total := round2
              ((r0 :: rest).foldl (fun s r => s + r.transfer_total) 0 +
                (merge (Key.day y mo d) r0 rest).transfer_total) }]) ∧
    (∀ (r0 : Rec) (rest : List Rec) (y mo : ℕ),
      (∀ r ∈ r0 :: rest, r.dt.monthKey = Key.mon y mo) →
      pushMonthlyRecords (r0 :: rest) [] = [merge (Key.mon y mo) r0 rest] ∧
      pushMonthlyRecords (r0 :: rest) [merge (Key.mon y mo) r0 rest] =
        [{ merge (Key.mon y mo) r0 rest with
            transfer_total := round2
              ((r0 :: rest).foldl (fun s r => s + r.transfer_total) 0 +
                (merge (Key.mon y mo) r0 rest).transfer_total) }]) := by
  constructor
  · intro r0 rest y mo d hkeys
    have hg : groupFold (fun r => r.dt.dateKey) (r0 :: rest) [] =
        [(Key.day y mo d, r0 :: rest)] :=
      groupFold_const_from_nil _ _ _ _ (fun r h => (hkeys r h).1)
    constructor
    · unfold pushDailyRecords
      rw [hg]
      show takeLast max1d_record_length (sortRecords
        ([(Key.day y mo d, r0 :: rest)].map (mergeGroup Key.take10))) = _
      rw [show ([(Key.day y mo d, r0 :: rest)].map (mergeGroup Key.take10)) =
        [merge (Key.take10 r0.dt) r0 rest] from rfl]
      rw [(hkeys r0 (List.mem_cons_self _ _)).2]
      rw [sortRecords_singleton, takeLast_singleton _ _ (by decide)]
    · unfold pushDailyRecords
      rw [hg]
      show takeLast max1d_record_length (sortRecords
        ((groupInsert [(Key.day y mo d, r0 :: rest)]
          ((merge (Key.day y mo d) r0 rest).dt) (merge (Key.day y mo d) r0 rest)).map
          (mergeGroup Key.take10))) = _
      rw [show (merge (Key.day y mo d) r0 rest).dt = Key.day y mo d from rfl,
        groupInsert_hit]
      rw [show ([(Key.day y mo d, (r0 :: rest) ++ [merge (Key.day y mo d) r0 rest])].map
          (mergeGroup Key.take10)) =
        [merge (Key.take10 r0.dt) r0 (rest ++ [merge (Key.day y mo d) r0 rest])] from rfl]
      rw [(hkeys r0 (List.mem_cons_self _ _)).2]
      rw [merge_refold]
      rw [sortRecords_singleton, takeLast_singleton _ _ (by decide)]
  · intro r0 rest y mo hkeys
    have hg : groupFold (fun r => r.dt.monthKey) (r0 :: rest) [] =
        [(Key.mon y mo, r0 :: rest)] :=
      groupFold_const_from_nil _ _ _ _ hkeys
    constructor
    · unfold pushMonthlyRecords
      rw [hg]
      show takeLast max1month_record_length (sortRecords
        ([(Key.mon y mo, r0 :: rest)].map (mergeGroup Key.monthKey))) = _
      rw [show ([(Key.mon y mo, r0 :: rest)].map (mergeGroup Key.monthKey)) =
        [merge (Key.monthKey r0.dt) r0 rest] from rfl]
      rw [hkeys r0 (List.mem_cons_self _ _)]
      rw [sortRecords_singleton, takeLast_singleton _ _ (by decide)]
    · unfold pushMonthlyRecords
      rw [hg]
      show takeLast max1month_record_length (sortRecords
        ((groupInsert [(Key.mon y mo, r0 :: rest)]
          ((merge (Key.mon y mo) r0 rest).dt) (merge (Key.mon y mo) r0 rest)).map
          (mergeGroup Key.monthKey))) = _
      rw [show (merge (Key.mon y mo) r0 rest).dt = Key.mon y mo from rfl,
        groupInsert_hit]
      rw [show ([(Key.mon y mo, (r0 :: rest) ++ [merge (Key.mon y mo) r0 rest])].map
          (mergeGroup Key.monthKey)) =
        [merge (Key.monthKey r0.dt) r0 (rest ++ [merge (Key.mon y mo) r0 rest])] from rfl]
      rw [hkeys r0 (List.mem_cons_self _ _)]
      rw [merge_refold]
      rw [sortRecords_singleton, takeLast_singleton _ _ (by decide)]

theorem pushDaily_pushMonthly_rerun_refold_witness :
    pushDailyRecords [h1rec] [] = [merge (Key.day 2025 1 2) h1rec []] ∧
    pushDailyRecords [h1rec] [merge (Key.day 2025 1 2) h1rec []] =
      [{ merge (Key.day 2025 1 2) h1rec [] with
          transfer_total := round2
            (([h1rec] : List Rec).foldl (fun s r => s + r.transfer_total) 0 +
              (merge (Key.day 2025 1 2) h1rec []).transfer_total) }] ∧
    pushMonthlyRecords [d1rec] [] = [merge (Key.mon 2025 1) d1rec []] := by
  have h := pushDaily_pushMonthly_rerun_refold.1 h1rec [] 2025 1 2 (by decide)
  have h2 := pushDaily_pushMonthly_rerun_refold.2 d1rec [] 2025 1 (by decide)
  exact ⟨h.1, h.2, h2.1⟩

end Monitor
